import Mathlib

/-!
Verification of the finance-flow transaction/category data store and its
derived-metrics layer.

The TypeScript source keeps a single persisted dataset
(`{ transactions, categories }`) behind `localStorage`; every operation
reads it (`getData`), mutates it in memory and writes it back (`saveData`).
We model the persisted dataset as an explicit `FinancialData` value and each
store operation as a pure function `FinancialData → args → result × FinancialData`.
Platform-provided nondeterminism is passed in as parameters:
`new Date().toISOString()` becomes a `now : String` argument and
`crypto.randomUUID()` a `newId : String` argument.  JS numbers are modelled
as exact rationals (`Rat`); ISO date strings are parsed at day granularity,
matching the day-resolution `Date` comparisons the components perform.
-/

/-- `'income' | 'expense'` discriminant of transactions and categories. -/
inductive TxType where
  | income
  | expense
deriving DecidableEq, Repr

/-- `'paid' | 'pending'` transaction status. -/
inductive TxStatus where
  | paid
  | pending
deriving DecidableEq, Repr

/-- A calendar date at day granularity, the resolution at which the
components compare `new Date(t.date)` against the month window. -/
structure Date where
  year : Int
  month : Nat
  day : Nat
deriving DecidableEq, Repr

/-- Lexicographic order on dates: models `<=` on day-resolution JS `Date`s. -/
def Date.le (a b : Date) : Prop :=
  a.year < b.year ∨
    (a.year = b.year ∧ (a.month < b.month ∨ (a.month = b.month ∧ a.day ≤ b.day)))

instance (a b : Date) : Decidable (Date.le a b) := by
  unfold Date.le; infer_instance

/-- `Transaction` record of `storage.ts` (amounts as exact rationals,
`date`/`createdAt`/`updatedAt` kept as the strings the store persists). -/
structure Transaction where
  id : String
  description : String
  amount : Rat
  categoryId : String
  date : String
  type : TxType
  status : TxStatus
  notes : Option String
  createdAt : String
  updatedAt : String
deriving DecidableEq, Repr

/-- `Category` record of `storage.ts`. -/
structure Category where
  id : String
  name : String
  color : String
  icon : String
  type : TxType
deriving DecidableEq, Repr

/-- The persisted dataset: `{ transactions, categories }`. -/
structure FinancialData where
  transactions : List Transaction
  categories : List Category
deriving DecidableEq, Repr

/-- The 12 seed categories (`defaultCategories` in `storage.ts`). -/
def defaultCategories : List Category :=
  [ ⟨"1", "Salário", "#10b981", "Briefcase", .income⟩,
    ⟨"2", "Freelance", "#3b82f6", "Laptop", .income⟩,
    ⟨"3", "Investimentos", "#8b5cf6", "TrendingUp", .income⟩,
    ⟨"4", "Outros", "#6b7280", "Plus", .income⟩,
    ⟨"5", "Alimentação", "#ef4444", "UtensilsCrossed", .expense⟩,
    ⟨"6", "Transporte", "#f59e0b", "Car", .expense⟩,
    ⟨"7", "Moradia", "#ec4899", "Home", .expense⟩,
    ⟨"8", "Saúde", "#06b6d4", "Heart", .expense⟩,
    ⟨"9", "Educação", "#8b5cf6", "GraduationCap", .expense⟩,
    ⟨"10", "Lazer", "#14b8a6", "Gamepad2", .expense⟩,
    ⟨"11", "Compras", "#f97316", "ShoppingBag", .expense⟩,
    ⟨"12", "Contas", "#64748b", "FileText", .expense⟩ ]

/-- The fields `addTransaction` accepts: `Omit<Transaction, 'id'|'createdAt'|'updatedAt'>`. -/
structure TransactionFields where
  description : String
  amount : Rat
  categoryId : String
  date : String
  type : TxType
  status : TxStatus
  notes : Option String
deriving DecidableEq, Repr

/-- `addTransaction`: builds the new record from the supplied fields, a fresh
id (`crypto.randomUUID()`, passed in as `newId`) and the current timestamp
(`now`), pushes it onto the transaction array and persists. -/
def addTransaction (data : FinancialData) (f : TransactionFields)
    (newId : String) (now : String) : Transaction × FinancialData :=
  let t : Transaction :=
    { id := newId
      description := f.description
      amount := f.amount
      categoryId := f.categoryId
      date := f.date
      type := f.type
      status := f.status
      notes := f.notes
      createdAt := now
      updatedAt := now }
  (t, { data with transactions := data.transactions ++ [t] })

/-- `Partial<Transaction>`: each field optionally present.  A present field
overwrites the stored one in the spread `{...old, ...updates}`; for `notes`
the patch may carry `undefined` (modelled as `some none`), which clears the
stored value.  `updatedAt` is listed for shape fidelity but the spread writes
`updatedAt: now` after the patch, so a patched value never survives. -/
structure TransactionPatch where
  id : Option String := none
  description : Option String := none
  amount : Option Rat := none
  categoryId : Option String := none
  date : Option String := none
  type : Option TxType := none
  status : Option TxStatus := none
  notes : Option (Option String) := none
  createdAt : Option String := none
  updatedAt : Option String := none
deriving DecidableEq, Repr

/-- The spread `{...t, ...p, updatedAt: now}` of `updateTransaction`. -/
def applyPatch (t : Transaction) (p : TransactionPatch) (now : String) : Transaction :=
  { id := p.id.getD t.id
    description := p.description.getD t.description
    amount := p.amount.getD t.amount
    categoryId := p.categoryId.getD t.categoryId
    date := p.date.getD t.date
    type := p.type.getD t.type
    status := p.status.getD t.status
    notes := p.notes.getD t.notes
    createdAt := p.createdAt.getD t.createdAt
    updatedAt := now }

/-- `updateTransaction`: `findIndex` by id, `null` when absent, otherwise
replace the record at that index with the merged one and persist. -/
def updateTransaction (data : FinancialData) (id : String)
    (p : TransactionPatch) (now : String) : Option Transaction × FinancialData :=
  match data.transactions.findIdx? (fun t => t.id == id) with
  | none => (none, data)
  | some i =>
    match data.transactions[i]? with
    | none => (none, data)
    | some t =>
      let t' := applyPatch t p now
      (some t', { data with transactions := data.transactions.set i t' })

/-- `deleteTransaction`: `findIndex` by id, `false` when absent, otherwise
`splice(index, 1)` and persist, returning `true`. -/
def deleteTransaction (data : FinancialData) (id : String) : Bool × FinancialData :=
  match data.transactions.findIdx? (fun t => t.id == id) with
  | none => (false, data)
  | some i =>
    (true, { data with
      transactions := data.transactions.take i ++ data.transactions.drop (i + 1) })

/-- `Partial<Category>` patch. -/
structure CategoryPatch where
  id : Option String := none
  name : Option String := none
  color : Option String := none
  icon : Option String := none
  type : Option TxType := none
deriving DecidableEq, Repr

/-- The spread `{...c, ...p}` of `updateCategory`. -/
def applyCategoryPatch (c : Category) (p : CategoryPatch) : Category :=
  { id := p.id.getD c.id
    name := p.name.getD c.name
    color := p.color.getD c.color
    icon := p.icon.getD c.icon
    type := p.type.getD c.type }

/-- `addCategory`: builds the record from the fields and a fresh id, pushes,
persists. -/
def addCategory (data : FinancialData) (name color icon : String) (ty : TxType)
    (newId : String) : Category × FinancialData :=
  let c : Category := { id := newId, name := name, color := color, icon := icon, type := ty }
  (c, { data with categories := data.categories ++ [c] })

/-- `updateCategory`: `findIndex` by id, `null` when absent, otherwise merge
in place and persist. -/
def updateCategory (data : FinancialData) (id : String)
    (p : CategoryPatch) : Option Category × FinancialData :=
  match data.categories.findIdx? (fun c => c.id == id) with
  | none => (none, data)
  | some i =>
    match data.categories[i]? with
    | none => (none, data)
    | some c =>
      let c' := applyCategoryPatch c p
      (some c', { data with categories := data.categories.set i c' })

/-- `deleteCategory`: `findIndex` by id, `false` when absent; if any
transaction still references the id, `throw` (modelled as `.error`) without
persisting; otherwise `splice` and persist, returning `true`. -/
def deleteCategory (data : FinancialData) (id : String) : Except String Bool × FinancialData :=
  match data.categories.findIdx? (fun c => c.id == id) with
  | none => (Except.ok false, data)
  | some i =>
    if data.transactions.any (fun t => t.categoryId == id) then
      (Except.error "Não é possível excluir categoria com transações associadas", data)
    else
      (Except.ok true, { data with
        categories := data.categories.take i ++ data.categories.drop (i + 1) })

/-! ### Helper lemmas -/

/-- Setting an index to an element with the same image under `f` leaves the
mapped list unchanged. -/
theorem map_set_eq_map {α β : Type} (f : α → β) :
    ∀ (l : List α) (i : Nat) (a : α), (∀ h : i < l.length, f a = f l[i]) →
      (l.set i a).map f = l.map f
  | [], _, _, _ => rfl
  | x :: xs, 0, a, h => by
    simp only [List.set, List.map]
    rw [h (by simp)]
    rfl
  | x :: xs, i + 1, a, h => by
    simp only [List.set, List.map]
    rw [map_set_eq_map f xs i a (fun hi => h (by simpa using Nat.succ_lt_succ hi))]

/-! ### Claim theorems about the store -/

/-- Claim C5: for every id absent from the corresponding record set,
`updateTransaction`, `deleteTransaction` and `updateCategory` signal
not-found via their sentinel (`null` resp. `false`), raise no error, and
leave the whole dataset unchanged. -/
theorem notFound_ops_leave_data_unchanged (data : FinancialData) (idv : String)
    (p : TransactionPatch) (q : CategoryPatch) (now : String) :
    ((∀ t ∈ data.transactions, t.id ≠ idv) →
        updateTransaction data idv p now = (none, data) ∧
        deleteTransaction data idv = (false, data)) ∧
    ((∀ c ∈ data.categories, c.id ≠ idv) →
        updateCategory data idv q = (none, data)) := by
  refine ⟨fun ht => ?_, fun hc => ?_⟩
  · have h : data.transactions.findIdx? (fun t => t.id == idv) = none :=
      List.findIdx?_eq_none_iff.mpr (fun x hx => by simpa using ht x hx)
    exact ⟨by simp [updateTransaction, h], by simp [deleteTransaction, h]⟩
  · have h : data.categories.findIdx? (fun c => c.id == idv) = none :=
      List.findIdx?_eq_none_iff.mpr (fun x hx => by simpa using hc x hx)
    simp [updateCategory, h]

/-- Witness for C5 at a concrete dataset and id. -/
theorem notFound_ops_leave_data_unchanged_witness :
    (updateTransaction ⟨[], defaultCategories⟩ "zz" {} "t1" = (none, ⟨[], defaultCategories⟩) ∧
      deleteTransaction ⟨[], defaultCategories⟩ "zz" = (false, ⟨[], defaultCategories⟩)) ∧
    updateCategory ⟨[], defaultCategories⟩ "zz" {} = (none, ⟨[], defaultCategories⟩) := by
  have h := notFound_ops_leave_data_unchanged ⟨[], defaultCategories⟩ "zz" {} {} "t1"
  exact ⟨h.1 (by decide), h.2 (by decide)⟩

/-- Claim C10: `deleteCategory` on an id that no category carries returns
`false` (no exception) and leaves the dataset unchanged — the existence
check runs before the referential-integrity check, so transactions
referencing the id are irrelevant. -/
theorem deleteCategory_absent_id (data : FinancialData) (idv : String)
    (h : ∀ c ∈ data.categories, c.id ≠ idv) :
    deleteCategory data idv = (Except.ok false, data) := by
  have hnone : data.categories.findIdx? (fun c => c.id == idv) = none :=
    List.findIdx?_eq_none_iff.mpr (fun x hx => by simpa using h x hx)
  simp [deleteCategory, hnone]

/-- Witness for C10: the deleted id is absent from the categories even though
a stored transaction references it, and the call still returns `false`
leaving everything in place. -/
theorem deleteCategory_absent_id_witness :
    deleteCategory
        ⟨[⟨"t1", "x", 5, "ghost", "2024-03-10", .expense, .paid, none, "n", "n"⟩],
          defaultCategories⟩ "ghost" =
      (Except.ok false,
        ⟨[⟨"t1", "x", 5, "ghost", "2024-03-10", .expense, .paid, none, "n", "n"⟩],
          defaultCategories⟩) :=
  deleteCategory_absent_id _ "ghost" (by decide)

/-- Claim C6: `addTransaction` with a fresh generated id returns a record
whose id differs from all stored ids, whose `createdAt` equals `updatedAt`,
and whose remaining fields are the supplied ones; the record is appended at
the end of the transaction sequence and the categories are untouched. -/
theorem addTransaction_spec (data : FinancialData) (f : TransactionFields)
    (newId now : String) (h : ∀ t ∈ data.transactions, t.id ≠ newId) :
    (∀ t0 ∈ data.transactions, t0.id ≠ (addTransaction data f newId now).1.id) ∧
    (addTransaction data f newId now).1.createdAt =
      (addTransaction data f newId now).1.updatedAt ∧
    (addTransaction data f newId now).1.description = f.description ∧
    (addTransaction data f newId now).1.amount = f.amount ∧
    (addTransaction data f newId now).1.categoryId = f.categoryId ∧
    (addTransaction data f newId now).1.date = f.date ∧
    (addTransaction data f newId now).1.type = f.type ∧
    (addTransaction data f newId now).1.status = f.status ∧
    (addTransaction data f newId now).1.notes = f.notes ∧
    (addTransaction data f newId now).2.transactions =
      data.transactions ++ [(addTransaction data f newId now).1] ∧
    (addTransaction data f newId now).2.categories = data.categories :=
  ⟨fun t0 ht0 => h t0 ht0, rfl, rfl, rfl, rfl, rfl, rfl, rfl, rfl, rfl, rfl⟩

/-- Witness for C6 at a concrete dataset and field set. -/
theorem addTransaction_spec_witness :
    (∀ t0 ∈ ([] : List Transaction), t0.id ≠
      (addTransaction ⟨[], defaultCategories⟩ ⟨"d", 7, "5", "2024-03-10", .expense, .paid, none⟩
        "u1" "now").1.id) ∧
    (addTransaction ⟨[], defaultCategories⟩ ⟨"d", 7, "5", "2024-03-10", .expense, .paid, none⟩
        "u1" "now").1.createdAt =
      (addTransaction ⟨[], defaultCategories⟩ ⟨"d", 7, "5", "2024-03-10", .expense, .paid, none⟩
        "u1" "now").1.updatedAt :=
  ⟨((addTransaction_spec ⟨[], defaultCategories⟩ ⟨"d", 7, "5", "2024-03-10", .expense, .paid, none⟩
      "u1" "now") (by simp)).1,
   ((addTransaction_spec ⟨[], defaultCategories⟩ ⟨"d", 7, "5", "2024-03-10", .expense, .paid, none⟩
      "u1" "now") (by simp)).2.1⟩

/-- Claim C9 counterexample input: a dataset holding one transaction with id
`"a"`. -/
def cxData : FinancialData :=
  ⟨[⟨"a", "d", 0, "c", "2024-01-10", .expense, .paid, none, "t0", "t0"⟩], []⟩

/-- Claim C9, counterexample: `updateTransaction` merges the patch with an
object spread, so a patch carrying an `id` field overwrites the stored id —
the returned and stored records carry id `"b"`, not the pre-update `"a"`. -/
theorem updateTransaction_id_counterexample :
    (updateTransaction cxData "a" { id := some "b" } "t1").1.map Transaction.id = some "b" ∧
    (updateTransaction cxData "a" { id := some "b" } "t1").2.transactions.map Transaction.id
      = ["b"] ∧ "b" ≠ "a" := by
  refine ⟨rfl, rfl, by decide⟩

/-- Claim C9 as amended: for every patch that does not carry an `id` field
(the shape every caller in the repository passes), the record returned by
`updateTransaction` keeps the looked-up id and the stored id sequence is
unchanged. -/
theorem updateTransaction_preserves_id (data : FinancialData) (idv : String)
    (p : TransactionPatch) (now : String) (hp : p.id = none) :
    (∀ t', (updateTransaction data idv p now).1 = some t' → t'.id = idv) ∧
    (updateTransaction data idv p now).2.transactions.map Transaction.id =
      data.transactions.map Transaction.id := by
  unfold updateTransaction
  cases hidx : data.transactions.findIdx? (fun t => t.id == idv) with
  | none => simp
  | some i =>
    obtain ⟨hlen, hpi, -⟩ := List.findIdx?_eq_some_iff_getElem.mp hidx
    have hget : data.transactions[i]? = some data.transactions[i] := by simp [hlen]
    dsimp only
    rw [hget]
    dsimp only
    have hid : (applyPatch data.transactions[i] p now).id = data.transactions[i].id := by
      simp [applyPatch, hp]
    constructor
    · intro t' ht'
      have ht'' : t' = applyPatch data.transactions[i] p now := by
        simpa using ht'.symm
      rw [ht'', hid]
      simpa using hpi
    · exact map_set_eq_map Transaction.id _ i _ (fun _ => hid)

/-- Witness for the amended C9 at a concrete dataset and patch. -/
theorem updateTransaction_preserves_id_witness :
    (∀ t', (updateTransaction cxData "a" { amount := some 9 } "t1").1 = some t' →
      t'.id = "a") ∧
    (updateTransaction cxData "a" { amount := some 9 } "t1").2.transactions.map Transaction.id =
      cxData.transactions.map Transaction.id :=
  updateTransaction_preserves_id cxData "a" { amount := some 9 } "t1" rfl

/-- Claim C1: a present category still referenced by some transaction cannot
be deleted — `deleteCategory` raises (modelled as `Except.error`) and leaves
both record sets untouched; a present category with no referencing
transaction is removed (exactly its first occurrence) and the call returns
`true`. -/
theorem deleteCategory_referential_integrity (data : FinancialData) (cid : String) :
    ((∃ c ∈ data.categories, c.id = cid) →
      (∃ t ∈ data.transactions, t.categoryId = cid) →
      deleteCategory data cid =
        (Except.error "Não é possível excluir categoria com transações associadas", data)) ∧
    ((∃ c ∈ data.categories, c.id = cid) →
      (∀ t ∈ data.transactions, t.categoryId ≠ cid) →
      ∃ l₁ c l₂, data.categories = l₁ ++ c :: l₂ ∧ c.id = cid ∧
        (∀ c' ∈ l₁, c'.id ≠ cid) ∧
        deleteCategory data cid = (Except.ok true, ⟨data.transactions, l₁ ++ l₂⟩)) := by
  constructor
  · rintro ⟨c, hc, hcid⟩ ⟨t, ht, htc⟩
    obtain ⟨i, hi⟩ : ∃ i, data.categories.findIdx? (fun c => c.id == cid) = some i :=
      ⟨_, List.findIdx?_eq_some_of_exists ⟨c, hc, by simp [hcid]⟩⟩
    have hany : data.transactions.any (fun t => t.categoryId == cid) = true :=
      List.any_eq_true.mpr ⟨t, ht, by simp [htc]⟩
    unfold deleteCategory
    rw [hi, hany]
    rfl
  · rintro ⟨c, hc, hcid⟩ hno
    obtain ⟨i, hi⟩ : ∃ i, data.categories.findIdx? (fun c => c.id == cid) = some i :=
      ⟨_, List.findIdx?_eq_some_of_exists ⟨c, hc, by simp [hcid]⟩⟩
    obtain ⟨hlen, hpi, hbefore⟩ := List.findIdx?_eq_some_iff_getElem.mp hi
    refine ⟨data.categories.take i, data.categories[i], data.categories.drop (i + 1),
      ?_, by simpa using hpi, ?_, ?_⟩
    · conv_lhs => rw [← List.take_append_drop i data.categories]
      rw [List.drop_eq_getElem_cons hlen]
    · intro c' hc'
      obtain ⟨j, hj, rfl⟩ := List.mem_take_iff_getElem.mp hc'
      have hji : j < i := lt_of_lt_of_le hj (min_le_left _ _)
      have := hbefore j hji
      simpa using this
    · have hany : data.transactions.any (fun t => t.categoryId == cid) = false :=
        List.any_eq_false.mpr (fun x hx => by simpa using hno x hx)
      unfold deleteCategory
      rw [hi, hany]
      rfl

/-- Witness for C1: both branches at concrete datasets — category `"5"`
referenced by a stored transaction cannot be deleted; with no transactions
the same call removes category `"5"` and succeeds. -/
theorem deleteCategory_referential_integrity_witness :
    deleteCategory
        ⟨[⟨"t1", "x", 5, "5", "2024-03-10", .expense, .paid, none, "n", "n"⟩],
          defaultCategories⟩ "5" =
      (Except.error "Não é possível excluir categoria com transações associadas",
        ⟨[⟨"t1", "x", 5, "5", "2024-03-10", .expense, .paid, none, "n", "n"⟩],
          defaultCategories⟩) ∧
    ∃ l₁ c l₂, defaultCategories = l₁ ++ c :: l₂ ∧ c.id = "5" ∧
      (∀ c' ∈ l₁, c'.id ≠ "5") ∧
      deleteCategory ⟨[], defaultCategories⟩ "5" = (Except.ok true, ⟨[], l₁ ++ l₂⟩) :=
  ⟨(deleteCategory_referential_integrity
      ⟨[⟨"t1", "x", 5, "5", "2024-03-10", .expense, .paid, none, "n", "n"⟩],
        defaultCategories⟩ "5").1
      ⟨⟨"5", "Alimentação", "#ef4444", "UtensilsCrossed", .expense⟩, by decide, rfl⟩
      ⟨⟨"t1", "x", 5, "5", "2024-03-10", .expense, .paid, none, "n", "n"⟩, by simp, rfl⟩,
   (deleteCategory_referential_integrity ⟨[], defaultCategories⟩ "5").2
      ⟨⟨"5", "Alimentação", "#ef4444", "UtensilsCrossed", .expense⟩, by decide, rfl⟩
      (by simp)⟩

/-! ### Month windows and the metrics layer

`Dashboard.metrics`, `ChartsPanel.chartData` and `ExpensesView.data` all
scope to `[monthStart, monthEnd]` (`monthEnd` = day 0 of the next month,
i.e. the last calendar day) and keep only `status === 'paid'`. -/

/-- Gregorian leap-year rule used by the JS `Date` calendar. -/
def isLeapYear (y : Int) : Bool :=
  y % 4 == 0 && (y % 100 != 0 || y % 400 == 0)

/-- Number of days of month `m` of year `y`: what `new Date(y, m, 0).getDate()`
yields for the preceding month `m`. -/
def daysInMonth (y : Int) (m : Nat) : Nat :=
  match m with
  | 2 => if isLeapYear y then 29 else 28
  | 4 => 30
  | 6 => 30
  | 9 => 30
  | 11 => 30
  | _ => 31

/-- `new Date(year, month, 1)`: the first day of the selected month. -/
def monthStart (y : Int) (m : Nat) : Date := ⟨y, m, 1⟩

/-- `new Date(year, month + 1, 0)`: the last day of the selected month. -/
def monthEnd (y : Int) (m : Nat) : Date := ⟨y, m, daysInMonth y m⟩

/-- Split a character list on a separator (structural stand-in for JS
`String.prototype.split` on a one-character separator). -/
def splitOnChar (sep : Char) : List Char → List (List Char)
  | [] => [[]]
  | c :: rest =>
    match splitOnChar sep rest with
    | [] => if c = sep then [[], []] else [[c]]
    | g :: gs => if c = sep then [] :: g :: gs else (c :: g) :: gs

/-- Decimal digits to a number (`Number("07") = 7`); empty or non-digit
input yields `none`. -/
def charsToNat? (cs : List Char) : Option Nat :=
  if cs = [] then none
  else if cs.all Char.isDigit then
    some (cs.foldl (fun n c => n * 10 + (c.toNat - 48)) 0)
  else none

/-- `new Date(t.date)` at day granularity for ISO `YYYY-MM-DD` text;
unparseable text behaves like `Invalid Date` (every comparison false). -/
def parseDate (s : String) : Option Date :=
  match (splitOnChar (Char.ofNat 45) s.toList).map charsToNat? with
  | [some y, some m, some d] => some ⟨(y : Int), m, d⟩
  | _ => none

/-- `date >= monthStart && date <= monthEnd` of the components' filters. -/
def inWindow (t : Transaction) (y : Int) (m : Nat) : Bool :=
  match parseDate t.date with
  | some d => decide (Date.le (monthStart y m) d) && decide (Date.le d (monthEnd y m))
  | none => false

/-- The shared filter `date >= monthStart && date <= monthEnd && t.status === 'paid'`. -/
def monthTransactions (txs : List Transaction) (y : Int) (m : Nat) : List Transaction :=
  txs.filter (fun t => inWindow t y m && t.status == TxStatus.paid)

/-- `reduce((sum, t) => sum + t.amount, 0)`. -/
def sumAmounts (txs : List Transaction) : Rat :=
  txs.foldl (fun sum t => sum + t.amount) 0

/-- The record `Dashboard.metrics` returns. -/
structure Summary where
  totalIncome : Rat
  totalExpense : Rat
  balance : Rat
  dailyAverage : Rat
  transactionCount : Nat
deriving DecidableEq, Repr

/-- `Dashboard.metrics`: paid transactions in the month window, per-type
totals, balance, daily average over the days of the month, count. -/
def summary (txs : List Transaction) (y : Int) (m : Nat) : Summary :=
  let monthTxs := monthTransactions txs y m
  let totalIncome := sumAmounts (monthTxs.filter (fun t => t.type == TxType.income))
  let totalExpense := sumAmounts (monthTxs.filter (fun t => t.type == TxType.expense))
  { totalIncome := totalIncome
    totalExpense := totalExpense
    balance := totalIncome - totalExpense
    dailyAverage := totalExpense / (daysInMonth y m : Rat)
    transactionCount := monthTxs.length }

/-- The summary as the spec words it: keep `status = paid` transactions whose
date falls in the month window; `totalIncome` is the sum of amounts with
`type = income`, `totalExpense` the sum with `type = expense`,
`balance = totalIncome - totalExpense`,
`dailyAverage = totalExpense / daysInMonth`, and the count covers both
types.  Stated independently of `summary` for comparison. -/
def summarySpec (txs : List Transaction) (y : Int) (m : Nat) : Summary :=
  let kept := txs.filter (fun t => t.status == TxStatus.paid && inWindow t y m)
  { totalIncome := ((kept.filter (fun t => t.type == TxType.income)).map Transaction.amount).sum
    totalExpense := ((kept.filter (fun t => t.type == TxType.expense)).map Transaction.amount).sum
    balance := ((kept.filter (fun t => t.type == TxType.income)).map Transaction.amount).sum -
      ((kept.filter (fun t => t.type == TxType.expense)).map Transaction.amount).sum
    dailyAverage := ((kept.filter (fun t => t.type == TxType.expense)).map
      Transaction.amount).sum / (daysInMonth y m : Rat)
    transactionCount := kept.length }

/-- `sumAmounts` agrees with summing the mapped amounts. -/
theorem sumAmounts_eq_sum_map (l : List Transaction) :
    sumAmounts l = (l.map Transaction.amount).sum := by
  suffices h : ∀ (a : Rat), l.foldl (fun sum t => sum + t.amount) a =
      a + (l.map Transaction.amount).sum by
    simpa [sumAmounts] using h 0
  induction l with
  | nil => simp
  | cons t l ih => intro a; simp [ih, add_assoc]

/-- Claim C2: the dashboard summary computes exactly the spec's aggregation
(paid-in-window filtering, per-type totals, balance, daily average, count of
both types), and on the empty transaction sequence every component is `0`
with no division failure. -/
theorem summary_correct :
    (∀ (txs : List Transaction) (y : Int) (m : Nat), summary txs y m = summarySpec txs y m) ∧
    (∀ (y : Int) (m : Nat), summary [] y m = ⟨0, 0, 0, 0, 0⟩) := by
  constructor
  · intro txs y m
    have hfilter : monthTransactions txs y m =
        txs.filter (fun t => t.status == TxStatus.paid && inWindow t y m) :=
      List.filter_congr (fun x _ => by rw [Bool.and_comm])
    simp only [summary, summarySpec, hfilter, sumAmounts_eq_sum_map]
  · intro y m
    simp [summary, summarySpec, monthTransactions, sumAmounts]

/-! ### Grouping by key

Both chart computations build a JS object by
`obj[key] = (obj[key] || 0) + t.amount` and then take `Object.entries`.
We model the object as an association list in first-insertion order:
updating an existing key keeps its position, a new key is appended.
(String `===` is modelled by propositional equality on `String`.) -/

/-- One step of `obj[key] = (obj[key] || 0) + amt`. -/
def bump (acc : List (String × Rat)) (key : String) (amt : Rat) : List (String × Rat) :=
  match acc with
  | [] => [(key, amt)]
  | (k, v) :: rest =>
    if k = key then (k, v + amt) :: rest else (k, v) :: bump rest key amt

/-- The whole `forEach` accumulation, keyed by `kf`. -/
def groupSums (kf : Transaction → String) (txs : List Transaction) : List (String × Rat) :=
  txs.foldl (fun acc t => bump acc (kf t) t.amount) []

/-- `obj[key]` on the association-list model. -/
def lookupVal : List (String × Rat) → String → Option Rat
  | [], _ => none
  | (k, v) :: rest, key => if k = key then some v else lookupVal rest key

theorem lookupVal_bump (acc : List (String × Rat)) (k : String) (a : Rat) (key : String) :
    lookupVal (bump acc k a) key =
      if key = k then some ((lookupVal acc k).getD 0 + a) else lookupVal acc key := by
  induction acc with
  | nil =>
    by_cases h : key = k
    · subst h; simp [bump, lookupVal]
    · simp [bump, lookupVal, h, Ne.symm h]
  | cons e rest ih =>
    obtain ⟨k', v⟩ := e
    by_cases hk : k' = k
    · subst hk
      by_cases h : key = k'
      · subst h; simp [bump, lookupVal]
      · simp [bump, lookupVal, h, Ne.symm h]
    · by_cases h : key = k'
      · subst h
        simp [bump, lookupVal, hk, Ne.symm hk]
      · simp [bump, lookupVal, hk, h, Ne.symm h, ih]

theorem keys_bump (acc : List (String × Rat)) (k : String) (a : Rat) :
    (bump acc k a).map Prod.fst =
      if k ∈ acc.map Prod.fst then acc.map Prod.fst else acc.map Prod.fst ++ [k] := by
  induction acc with
  | nil => simp [bump]
  | cons e rest ih =>
    obtain ⟨k', v⟩ := e
    by_cases hk : k' = k
    · subst hk; simp [bump]
    · simp only [bump, if_neg hk, List.map_cons, List.mem_cons]
      rw [ih]
      by_cases hmem : k ∈ rest.map Prod.fst
      · simp [hmem, Ne.symm hk]
      · simp [hmem, Ne.symm hk]

theorem nodup_keys_bump (acc : List (String × Rat)) (k : String) (a : Rat)
    (h : (acc.map Prod.fst).Nodup) : ((bump acc k a).map Prod.fst).Nodup := by
  rw [keys_bump]
  by_cases hmem : k ∈ acc.map Prod.fst
  · simpa [hmem] using h
  · simpa [hmem] using List.Nodup.append h (List.nodup_singleton k)
      (List.disjoint_singleton.mpr hmem)

/-- If no element of `l` has key `key`, the filtered list is empty. -/
theorem filter_key_eq_nil (kf : Transaction → String) (l : List Transaction) (key : String)
    (h : key ∉ l.map kf) : l.filter (fun t => decide (kf t = key)) = [] :=
  List.filter_eq_nil_iff.mpr (fun x hx => by
    simp only [decide_eq_true_eq]
    exact fun he => h (he ▸ List.mem_map_of_mem kf hx))

theorem lookupVal_foldl_bump (kf : Transaction → String) (l : List Transaction) :
    ∀ (acc : List (String × Rat)) (key : String),
      lookupVal (l.foldl (fun acc t => bump acc (kf t) t.amount) acc) key =
        if key ∈ l.map kf
        then some ((lookupVal acc key).getD 0 +
          ((l.filter (fun t => decide (kf t = key))).map Transaction.amount).sum)
        else lookupVal acc key := by
  induction l with
  | nil => intro acc key; simp
  | cons t l ih =>
    intro acc key
    simp only [List.foldl_cons]
    rw [ih]
    by_cases hkt : key = kf t
    · subst hkt
      by_cases hmem : kf t ∈ l.map kf
      · rw [if_pos hmem, if_pos (by simp), lookupVal_bump, if_pos rfl,
          List.filter_cons, if_pos (by simp)]
        simp [add_assoc]
      · rw [if_neg hmem, if_pos (by simp), lookupVal_bump, if_pos rfl,
          List.filter_cons, if_pos (by simp), filter_key_eq_nil kf l (kf t) hmem]
        simp
    · have hbump : lookupVal (bump acc (kf t) t.amount) key = lookupVal acc key := by
        rw [lookupVal_bump, if_neg hkt]
      have hfilt : (t :: l).filter (fun x => decide (kf x = key)) =
          l.filter (fun x => decide (kf x = key)) := by
        rw [List.filter_cons, if_neg (by simp [Ne.symm hkt])]
      by_cases hmem : key ∈ l.map kf
      · rw [if_pos hmem, if_pos (by simp [hmem]), hbump, hfilt]
      · rw [if_neg hmem, if_neg (by simp [List.mem_cons, hkt, hmem]), hbump]

/-- `obj[key]` at the end of the accumulation: present iff some kept
transaction has that key, and then it holds the per-key sum. -/
theorem lookupVal_groupSums (kf : Transaction → String) (l : List Transaction) (key : String) :
    lookupVal (groupSums kf l) key =
      if key ∈ l.map kf
      then some ((l.filter (fun t => decide (kf t = key))).map Transaction.amount).sum
      else none := by
  have h := lookupVal_foldl_bump kf l [] key
  simp only [lookupVal] at h
  simpa [groupSums] using h

theorem nodup_keys_groupSums (kf : Transaction → String) (l : List Transaction) :
    ((groupSums kf l).map Prod.fst).Nodup := by
  suffices h : ∀ acc : List (String × Rat), (acc.map Prod.fst).Nodup →
      (((l.foldl (fun acc t => bump acc (kf t) t.amount) acc)).map Prod.fst).Nodup from
    h [] (by simp)
  induction l with
  | nil => intro acc hacc; simpa using hacc
  | cons t l ih =>
    intro acc hacc
    simpa using ih (bump acc (kf t) t.amount) (nodup_keys_bump acc (kf t) t.amount hacc)

theorem lookupVal_eq_some_of_mem :
    ∀ (acc : List (String × Rat)), (acc.map Prod.fst).Nodup →
      ∀ {key : String} {v : Rat}, (key, v) ∈ acc → lookupVal acc key = some v
  | [], _, _, _, hm => by simp at hm
  | (k', v') :: rest, hnd, key, v, hm => by
    rcases List.mem_cons.mp hm with he | hr
    · injection he with h1 h2
      subst h1; subst h2
      simp [lookupVal]
    · by_cases hk : k' = key
      · exfalso
        subst hk
        have hmem : k' ∈ rest.map Prod.fst := List.mem_map_of_mem Prod.fst hr
        simp only [List.map_cons, List.nodup_cons] at hnd
        exact hnd.1 hmem
      · simp only [lookupVal, if_neg hk]
        exact lookupVal_eq_some_of_mem rest (by
          simp only [List.map_cons, List.nodup_cons] at hnd
          exact hnd.2) hr

theorem mem_of_lookupVal_eq_some :
    ∀ (acc : List (String × Rat)) (key : String) (v : Rat),
      lookupVal acc key = some v → (key, v) ∈ acc
  | [], _, _, h => by simp [lookupVal] at h
  | (k', v') :: rest, key, v, h => by
    by_cases hk : k' = key
    · subst hk
      simp only [lookupVal, if_true, eq_self_iff_true, Option.some.injEq] at h
      subst h
      exact List.mem_cons_self _ _
    · simp only [lookupVal, if_neg hk] at h
      exact List.mem_cons_of_mem _ (mem_of_lookupVal_eq_some rest key v h)

/-- Full characterization of the grouped entries: `(key, v)` is an entry iff
some kept transaction carries that key and `v` is the sum of the amounts of
all kept transactions with that key. -/
theorem mem_groupSums_iff (kf : Transaction → String) (l : List Transaction)
    (key : String) (v : Rat) :
    (key, v) ∈ groupSums kf l ↔
      key ∈ l.map kf ∧
        v = ((l.filter (fun t => decide (kf t = key))).map Transaction.amount).sum := by
  constructor
  · intro hm
    have hl := lookupVal_eq_some_of_mem _ (nodup_keys_groupSums kf l) hm
    rw [lookupVal_groupSums] at hl
    by_cases hk : key ∈ l.map kf
    · rw [if_pos hk] at hl
      injection hl with hv
      exact ⟨hk, hv.symm⟩
    · rw [if_neg hk] at hl
      exact absurd hl (by simp)
  · rintro ⟨hk, rfl⟩
    exact mem_of_lookupVal_eq_some _ _ _ (by rw [lookupVal_groupSums, if_pos hk])

/-! ### `ChartsPanel.pieData` (expenses by category) -/

/-- An entry of the pie chart: `{ name, value, color }`. -/
structure PieEntry where
  name : String
  value : Rat
  color : String
deriving DecidableEq, Repr

/-- `monthTransactions.filter(t => t.type === 'expense')`. -/
def paidExpenses (txs : List Transaction) (y : Int) (m : Nat) : List Transaction :=
  (monthTransactions txs y m).filter (fun t => t.type == TxType.expense)

/-- `category?.name || 'Outros'` and `category?.color || '#6b7280'` over
`categories.find(c => c.id === categoryId)`: the fallback applies both to a
dangling category reference and, through `||`, to a found category whose
`name`/`color` is the empty (falsy) string. -/
def resolveCategory (cats : List Category) (e : String × Rat) : PieEntry :=
  match cats.find? (fun c => decide (c.id = e.1)) with
  | some c =>
    ⟨if c.name = "" then "Outros" else c.name, e.2,
     if c.color = "" then "#6b7280" else c.color⟩
  | none => ⟨"Outros", e.2, "#6b7280"⟩

/-- `.sort((a, b) => b.value - a.value)`: `a` may precede `b` when its value
is at least `b`'s (descending by amount). -/
def pieGE (a b : PieEntry) : Prop := b.value ≤ a.value

instance : DecidableRel pieGE := fun a b => inferInstanceAs (Decidable (b.value ≤ a.value))

instance : IsTotal PieEntry pieGE := ⟨fun a b => le_total b.value a.value⟩

instance : IsTrans PieEntry pieGE := ⟨fun _ _ _ hab hbc => le_trans hbc hab⟩

/-- `ChartsPanel.pieData`: group paid in-window expenses by `categoryId`,
resolve to display name/color, sort descending by amount. -/
def pieData (txs : List Transaction) (cats : List Category) (y : Int) (m : Nat) :
    List PieEntry :=
  ((groupSums Transaction.categoryId (paidExpenses txs y m)).map
    (resolveCategory cats)).insertionSort pieGE

/-- Claim C7: the expense breakdown keeps exactly the paid in-window expense
transactions, groups them by `categoryId` into per-category sums (every
referenced category id is represented, including dangling ones), resolves
each group to the category's name/color or to the generic fallback when the
category no longer exists (or, through JS `||`, when its stored name or
color is the empty string), and the result is sorted descending by amount. -/
theorem pieData_correct (txs : List Transaction) (cats : List Category) (y : Int) (m : Nat) :
    (pieData txs cats y m).Sorted pieGE ∧
    (pieData txs cats y m).Perm
      ((groupSums Transaction.categoryId (paidExpenses txs y m)).map (resolveCategory cats)) ∧
    (∀ t : Transaction, t ∈ paidExpenses txs y m ↔
      t ∈ txs ∧ inWindow t y m = true ∧ t.status = TxStatus.paid ∧ t.type = TxType.expense) ∧
    (∀ (cid : String) (v : Rat),
      (cid, v) ∈ groupSums Transaction.categoryId (paidExpenses txs y m) ↔
        cid ∈ (paidExpenses txs y m).map Transaction.categoryId ∧
          v = (((paidExpenses txs y m).filter
            (fun t => decide (t.categoryId = cid))).map Transaction.amount).sum) ∧
    (∀ e : String × Rat, cats.find? (fun c => decide (c.id = e.1)) = none →
      resolveCategory cats e = ⟨"Outros", e.2, "#6b7280"⟩) ∧
    (∀ (e : String × Rat) (c : Category),
      cats.find? (fun c => decide (c.id = e.1)) = some c →
      resolveCategory cats e =
        ⟨if c.name = "" then "Outros" else c.name, e.2,
         if c.color = "" then "#6b7280" else c.color⟩) := by
  refine ⟨List.sorted_insertionSort pieGE _, List.perm_insertionSort pieGE _,
    ?_, ?_, ?_, ?_⟩
  · intro t
    simp only [paidExpenses, monthTransactions, List.mem_filter, Bool.and_eq_true,
      beq_iff_eq, and_assoc]
  · intro cid v
    exact mem_groupSums_iff Transaction.categoryId _ cid v
  · intro e h
    simp [resolveCategory, h]
  · intro e c h
    simp [resolveCategory, h]

/-- Concrete transactions for the chart witnesses: two paid expenses of 30
(category `"5"`) and 70 (category `"6"`) in March 2024. -/
def marchTxs : List Transaction :=
  [ ⟨"t1", "a", 30, "5", "2024-03-10", .expense, .paid, none, "n", "n"⟩,
    ⟨"t2", "b", 70, "6", "2024-03-12", .expense, .paid, none, "n", "n"⟩ ]

/-- Witness for C7 at a concrete dataset: the breakdown is sorted descending
(`[70, 30]`) and a dangling category id resolves to the fallback entry. -/
theorem pieData_correct_witness :
    (pieData marchTxs defaultCategories 2024 3).Sorted pieGE ∧
    resolveCategory defaultCategories ("zzz", 5) = ⟨"Outros", 5, "#6b7280"⟩ :=
  ⟨(pieData_correct marchTxs defaultCategories 2024 3).1,
   (pieData_correct marchTxs defaultCategories 2024 3).2.2.2.2.1 ("zzz", 5) (by decide)⟩

/-! ### `ExpensesView.chartData` (daily histogram) -/

/-- The `viewMode` selector: expense-only, income-only, or both. -/
inductive ViewMode where
  | expenses
  | income
  | all
deriving DecidableEq, Repr

/-- The per-mode filter applied after the month/paid filter. -/
def viewFilter (vm : ViewMode) (t : Transaction) : Bool :=
  match vm with
  | .expenses => t.type == TxType.expense
  | .income => t.type == TxType.income
  | .all => true

/-- `filteredTransactions` of `ExpensesView`: paid, in-window, passing the
mode filter. -/
def filteredTransactions (txs : List Transaction) (y : Int) (m : Nat) (vm : ViewMode) :
    List Transaction :=
  (monthTransactions txs y m).filter (viewFilter vm)

/-- `day.toString().padStart(2, '0')`. -/
def pad2 (n : Nat) : String :=
  if n < 10 then "0" ++ toString n else toString n

/-- The grouping key
`${day.padStart(2,'0')}/${(month+1).padStart(2,'0')}`; an unparseable date
yields the JS `"NaN/NaN"` label (unreachable for in-window transactions). -/
def dayLabel (t : Transaction) : String :=
  match parseDate t.date with
  | some d => pad2 d.day ++ "/" ++ pad2 d.month
  | none => "NaN/NaN"

/-- A bar of the daily histogram: `{ date, value }`. -/
structure DayEntry where
  date : String
  value : Rat
deriving DecidableEq, Repr

/-- `const [dayA] = a.date.split('/').map(Number)`: the numeric day parsed
from the label's prefix. -/
def parseDayNum (s : String) : Nat :=
  (charsToNat? ((splitOnChar (Char.ofNat 47) s.toList).headD [])).getD 0

/-- `.sort((a, b) => dayA - dayB)`: ascending by the parsed day number, not
by lexicographic label comparison. -/
def dayLE (a b : DayEntry) : Prop := parseDayNum a.date ≤ parseDayNum b.date

instance : DecidableRel dayLE :=
  fun a b => inferInstanceAs (Decidable (parseDayNum a.date ≤ parseDayNum b.date))

instance : IsTotal DayEntry dayLE :=
  ⟨fun a b => Nat.le_total (parseDayNum a.date) (parseDayNum b.date)⟩

instance : IsTrans DayEntry dayLE := ⟨fun _ _ _ hab hbc => le_trans hab hbc⟩

/-- `ExpensesView.chartData`: group the filtered transactions by day label,
sum amounts per day, sort ascending by parsed day number. -/
def chartData (txs : List Transaction) (y : Int) (m : Nat) (vm : ViewMode) : List DayEntry :=
  ((groupSums dayLabel (filteredTransactions txs y m vm)).map
    (fun e => DayEntry.mk e.1 e.2)).insertionSort dayLE

/-- Claim C8: the daily histogram keeps exactly the paid in-window
transactions passing the type filter, groups them by zero-padded `day/month`
label with per-day sums, and is sorted ascending by the numeric day obtained
by parsing the label's day prefix (not by comparing whole labels). -/
theorem chartData_correct (txs : List Transaction) (y : Int) (m : Nat) (vm : ViewMode) :
    (chartData txs y m vm).Sorted dayLE ∧
    (chartData txs y m vm).Perm
      ((groupSums dayLabel (filteredTransactions txs y m vm)).map
        (fun e => DayEntry.mk e.1 e.2)) ∧
    (∀ t : Transaction, t ∈ filteredTransactions txs y m vm ↔
      t ∈ txs ∧ inWindow t y m = true ∧ t.status = TxStatus.paid ∧ viewFilter vm t = true) ∧
    (∀ (key : String) (v : Rat),
      (key, v) ∈ groupSums dayLabel (filteredTransactions txs y m vm) ↔
        key ∈ (filteredTransactions txs y m vm).map dayLabel ∧
          v = (((filteredTransactions txs y m vm).filter
            (fun t => decide (dayLabel t = key))).map Transaction.amount).sum) ∧
    (∀ t ∈ filteredTransactions txs y m vm, ∃ d : Date,
      parseDate t.date = some d ∧ dayLabel t = pad2 d.day ++ "/" ++ pad2 d.month) := by
  refine ⟨List.sorted_insertionSort dayLE _, List.perm_insertionSort dayLE _, ?_, ?_, ?_⟩
  · intro t
    simp only [filteredTransactions, monthTransactions, List.mem_filter, Bool.and_eq_true,
      beq_iff_eq, and_assoc]
  · intro key v
    exact mem_groupSums_iff dayLabel _ key v
  · intro t ht
    have hw : inWindow t y m = true := by
      rw [filteredTransactions, List.mem_filter, monthTransactions, List.mem_filter] at ht
      exact (Bool.and_eq_true ..|>.mp ht.1.2).1
    rw [inWindow] at hw
    cases hd : parseDate t.date with
    | none => rw [hd] at hw; exact absurd hw (by simp)
    | some d => exact ⟨d, rfl, by rw [dayLabel, hd]⟩

/-- Witness for C8 at a concrete dataset: two expense days in March 2024,
sorted ascending (`02/03` before `12/03`), labels zero-padded. -/
theorem chartData_correct_witness :
    (chartData
        [ ⟨"t1", "a", 30, "5", "2024-03-12", .expense, .paid, none, "n", "n"⟩,
          ⟨"t2", "b", 70, "6", "2024-03-02", .expense, .paid, none, "n", "n"⟩ ]
        2024 3 ViewMode.expenses).Sorted dayLE ∧
    (⟨"t2", "b", 70, "6", "2024-03-02", .expense, .paid, none, "n", "n"⟩ : Transaction) ∈
      filteredTransactions
        [ ⟨"t1", "a", 30, "5", "2024-03-12", .expense, .paid, none, "n", "n"⟩,
          ⟨"t2", "b", 70, "6", "2024-03-02", .expense, .paid, none, "n", "n"⟩ ]
        2024 3 ViewMode.expenses :=
  ⟨(chartData_correct
      [ ⟨"t1", "a", 30, "5", "2024-03-12", .expense, .paid, none, "n", "n"⟩,
        ⟨"t2", "b", 70, "6", "2024-03-02", .expense, .paid, none, "n", "n"⟩ ]
      2024 3 ViewMode.expenses).1,
   ((chartData_correct
      [ ⟨"t1", "a", 30, "5", "2024-03-12", .expense, .paid, none, "n", "n"⟩,
        ⟨"t2", "b", 70, "6", "2024-03-02", .expense, .paid, none, "n", "n"⟩ ]
      2024 3 ViewMode.expenses).2.2.1 _).mpr (by decide)⟩

/-! ### Import / export

`exportData` is `JSON.stringify(getData(), null, 2)` and `importData` is
`JSON.parse` + a truthiness check + `saveData`.  We model JSON documents as
an explicit tree and pass the platform text codec (`JSON.stringify` /
`JSON.parse`) in as parameters together with its round-trip contract; the
persisted payload is the stored document. -/

/-- A JSON document as `JSON.parse` produces it.  Object fields keep
insertion order. -/
inductive Json where
  | null
  | bool (b : Bool)
  | num (q : Rat)
  | str (s : String)
  | arr (elems : List Json)
  | obj (fields : List (String × Json))

/-- Field access on an object's field list. -/
def lookupField : List (String × Json) → String → Option Json
  | [], _ => none
  | (k, v) :: rest, key => if k = key then some v else lookupField rest key

/-- JS property access `data.key`: `none` plays `undefined` (also for
non-objects, whose property access never yields a useful value here). -/
def getField (j : Json) (key : String) : Option Json :=
  match j with
  | Json.obj fields => lookupField fields key
  | _ => none

/-- JS truthiness of `data.key`: `undefined`, `null`, `false`, `0` and `""`
are falsy; arrays and objects (even empty) are truthy. -/
def truthy : Option Json → Bool
  | none => false
  | some Json.null => false
  | some (Json.bool b) => b
  | some (Json.num q) => q != 0
  | some (Json.str s) => s != ""
  | some (Json.arr _) => true
  | some (Json.obj _) => true

/-- `importData`: on parse failure (`JSON.parse` threw, `parsed = none`)
return `false`; if `!data.transactions || !data.categories` throw and catch
to `false`; otherwise persist the parsed document wholesale and return
`true`. -/
def importData (parsed : Option Json) (persisted : Json) : Bool × Json :=
  match parsed with
  | none => (false, persisted)
  | some data =>
    if truthy (getField data "transactions") && truthy (getField data "categories") then
      (true, data)
    else
      (false, persisted)

/-- Serialization of the `type` discriminant. -/
def typeStr : TxType → String
  | .income => "income"
  | .expense => "expense"

/-- Serialization of the `status` discriminant. -/
def statusStr : TxStatus → String
  | .paid => "paid"
  | .pending => "pending"

/-- `JSON.stringify` drops a field holding `undefined`: an absent `notes`
contributes no field. -/
def notesFields : Option String → List (String × Json)
  | some s => [("notes", Json.str s)]
  | none => []

/-- The JSON form of a stored transaction. -/
def encodeTransaction (t : Transaction) : Json :=
  Json.obj ([("id", Json.str t.id),
    ("description", Json.str t.description),
    ("amount", Json.num t.amount),
    ("categoryId", Json.str t.categoryId),
    ("date", Json.str t.date),
    ("type", Json.str (typeStr t.type)),
    ("status", Json.str (statusStr t.status))] ++
    notesFields t.notes ++
    [("createdAt", Json.str t.createdAt),
     ("updatedAt", Json.str t.updatedAt)])

/-- The JSON form of a stored category. -/
def encodeCategory (c : Category) : Json :=
  Json.obj [("id", Json.str c.id), ("name", Json.str c.name),
    ("color", Json.str c.color), ("icon", Json.str c.icon),
    ("type", Json.str (typeStr c.type))]

/-- `exportData`: the serialized dataset
`{ transactions: [...], categories: [...] }`. -/
def exportData (d : FinancialData) : Json :=
  Json.obj [("transactions", Json.arr (d.transactions.map encodeTransaction)),
    ("categories", Json.arr (d.categories.map encodeCategory))]

/-- Read a string field. -/
def getStr (fields : List (String × Json)) (key : String) : Option String :=
  match lookupField fields key with
  | some (Json.str s) => some s
  | _ => none

/-- Read a numeric field. -/
def getNum (fields : List (String × Json)) (key : String) : Option Rat :=
  match lookupField fields key with
  | some (Json.num q) => some q
  | _ => none

/-- Parse the `type` discriminant back. -/
def parseTypeStr : String → Option TxType
  | "income" => some .income
  | "expense" => some .expense
  | _ => none

/-- Parse the `status` discriminant back. -/
def parseStatusStr : String → Option TxStatus
  | "paid" => some .paid
  | "pending" => some .pending
  | _ => none

/-- Read a transaction record back from its JSON form. -/
def decodeTransaction (j : Json) : Option Transaction :=
  match j with
  | Json.obj fs =>
    match getStr fs "id", getStr fs "description", getNum fs "amount",
        getStr fs "categoryId", getStr fs "date",
        (getStr fs "type").bind parseTypeStr,
        (getStr fs "status").bind parseStatusStr,
        getStr fs "createdAt", getStr fs "updatedAt" with
    | some i, some de, some am, some cid, some da, some ty, some st, some ca, some ua =>
      some ⟨i, de, am, cid, da, ty, st, getStr fs "notes", ca, ua⟩
    | _, _, _, _, _, _, _, _, _ => none
  | _ => none

/-- Read a category record back from its JSON form. -/
def decodeCategory (j : Json) : Option Category :=
  match j with
  | Json.obj fs =>
    match getStr fs "id", getStr fs "name", getStr fs "color", getStr fs "icon",
        (getStr fs "type").bind parseTypeStr with
    | some i, some na, some co, some ic, some ty => some ⟨i, na, co, ic, ty⟩
    | _, _, _, _, _ => none
  | _ => none

/-- Read a whole dataset back from its JSON form. -/
def decodeData (j : Json) : Option FinancialData :=
  match getField j "transactions", getField j "categories" with
  | some (Json.arr ts), some (Json.arr cs) =>
    match ts.mapM decodeTransaction, cs.mapM decodeCategory with
    | some ts', some cs' => some ⟨ts', cs'⟩
    | _, _ => none
  | _, _ => none

theorem decodeTransaction_encode (t : Transaction) :
    decodeTransaction (encodeTransaction t) = some t := by
  obtain ⟨i, de, am, cid, da, ty, st, no, ca, ua⟩ := t
  cases ty <;> cases st <;> cases no <;> rfl

theorem decodeCategory_encode (c : Category) :
    decodeCategory (encodeCategory c) = some c := by
  obtain ⟨i, na, co, ic, ty⟩ := c
  cases ty <;> rfl

theorem mapM_decodeTransaction_encode (l : List Transaction) :
    (l.map encodeTransaction).mapM decodeTransaction = some l := by
  induction l with
  | nil => rfl
  | cons t l ih =>
    rw [List.map_cons, List.mapM_cons, decodeTransaction_encode, ih]
    rfl

theorem mapM_decodeCategory_encode (l : List Category) :
    (l.map encodeCategory).mapM decodeCategory = some l := by
  induction l with
  | nil => rfl
  | cons c l ih =>
    rw [List.map_cons, List.mapM_cons, decodeCategory_encode, ih]
    rfl

/-- Decoding inverts encoding on whole datasets. -/
theorem decodeData_exportData (d : FinancialData) :
    decodeData (exportData d) = some d := by
  obtain ⟨ts, cs⟩ := d
  have h : decodeData (exportData ⟨ts, cs⟩) =
      (match (ts.map encodeTransaction).mapM decodeTransaction,
          (cs.map encodeCategory).mapM decodeCategory with
        | some ts', some cs' => some (⟨ts', cs'⟩ : FinancialData)
        | _, _ => none) := rfl
  rw [h, mapM_decodeTransaction_encode, mapM_decodeCategory_encode]

/-- Claim C3: importing an exported dataset succeeds — given the platform
`JSON.parse`/`JSON.stringify` round-trip contract at the exported text,
importing returns `true`, the persisted document is exactly the exported one,
and it denotes the exported dataset (deep equality). -/
theorem export_import_roundtrip (d : FinancialData) (st : Json)
    (stringify : Json → String) (parse : String → Option Json)
    (hrt : parse (stringify (exportData d)) = some (exportData d)) :
    importData (parse (stringify (exportData d))) st = (true, exportData d) ∧
    decodeData (exportData d) = some d := by
  constructor
  · rw [hrt]
    have ht : truthy (getField (exportData d) "transactions") = true := rfl
    have hc : truthy (getField (exportData d) "categories") = true := rfl
    simp [importData, ht, hc]
  · exact decodeData_exportData d

/-- Witness for C3 at a concrete dataset and a concrete codec satisfying the
round-trip contract at that value. -/
theorem export_import_roundtrip_witness :
    importData (some (exportData ⟨marchTxs, defaultCategories⟩)) Json.null =
      (true, exportData ⟨marchTxs, defaultCategories⟩) ∧
    decodeData (exportData ⟨marchTxs, defaultCategories⟩) =
      some ⟨marchTxs, defaultCategories⟩ :=
  export_import_roundtrip ⟨marchTxs, defaultCategories⟩ Json.null
    (fun _ => "") (fun _ => some (exportData ⟨marchTxs, defaultCategories⟩)) rfl

/-- Claim C4: `importData` returns `false` (and cannot throw — the model is
a total function) when parsing failed or when the parsed document lacks both
collections; every `false` outcome leaves the persisted payload unchanged;
and a `true` outcome stores exactly the parsed document. -/
theorem importData_failure_safety :
    (∀ st : Json, importData none st = (false, st)) ∧
    (∀ j st : Json, getField j "transactions" = none → getField j "categories" = none →
      importData (some j) st = (false, st)) ∧
    (∀ j st : Json, (importData (some j) st).1 = false → (importData (some j) st).2 = st) ∧
    (∀ j st j' : Json, importData (some j) st = (true, j') → j' = j) := by
  refine ⟨fun st => rfl, ?_, ?_, ?_⟩
  · intro j st h1 h2
    simp [importData, h1, truthy]
  · intro j st h
    by_cases hc : (truthy (getField j "transactions") && truthy (getField j "categories")) = true
    · rw [importData, if_pos hc] at h
      exact absurd h (by simp)
    · rw [importData, if_neg hc]
  · intro j st j' h
    by_cases hc : (truthy (getField j "transactions") && truthy (getField j "categories")) = true
    · rw [importData, if_pos hc] at h
      exact (Prod.mk.injEq .. ▸ h).2.symm
    · rw [importData, if_neg hc] at h
      exact absurd ((Prod.mk.injEq .. ▸ h).1) (by simp)

/-- Witness for C4: a numeric document (no collections at all) is rejected
and the old payload survives; a parse failure likewise. -/
theorem importData_failure_safety_witness :
    importData none (Json.str "keep") = (false, Json.str "keep") ∧
    importData (some (Json.num 3)) (Json.str "keep") = (false, Json.str "keep") :=
  ⟨importData_failure_safety.1 (Json.str "keep"),
   importData_failure_safety.2.1 (Json.num 3) (Json.str "keep") rfl rfl⟩
